import Mathlib

/-!
Verification development for the activity-tracker engine in
`src/base/debug/activity_tracker.cc`.

The per-thread tracker state (header plus record memory) is embedded as a
Lean structure; the writer operations `PushActivity`, `ChangeActivity` and
`PopActivity` and the reader operation `Snapshot` are translated directly
from the source.  Concurrency is modelled as sequentially consistent
interleaving: the writer's individual stores are micro-steps (`WStep`), and
`Snapshot` takes an explicit schedule describing which writer micro-steps
run in each gap between its own shared-memory accesses.  The global
registry's lock-free free list is embedded as a small-step machine whose
threads are the pusher loop of `ReturnTrackerMemory` and the popper loop of
`CreateTrackerForCurrentThread`.

Machine integers are Nat with explicit `% 2^32` / `% 2^64` where wraparound
is reachable; signed 64-bit times are Int (no claim depends on time
overflow).
-/

namespace ActivityTracker

/-- uint32 modulus. -/
def UINT32_MOD : Nat := 4294967296

/-- size_t modulus (64-bit build). -/
def SIZE_T_MOD : Nat := 18446744073709551616

/-- Truncation to uint32 (written as a mask, which Lean reduces safely on
symbolic arguments; `u32_eq_mod` below proves it is `% 2^32`). -/
def u32 (n : Nat) : Nat := n &&& (UINT32_MOD - 1)

/-- `size_t` subtraction `a - b` with wraparound (written by case analysis,
which Lean reduces safely on symbolic arguments; `sizetSub_eq_mod` below
proves it is `(a + 2^64 - b) % 2^64` on the size_t domain). -/
def sizetSub (a b : Nat) : Nat :=
  if b ≤ a then a - b else SIZE_T_MOD - (b - a)

/-- uint32 decrement (`d - 1` with wraparound, as `fetch_sub(1)` and the
`uint32_t` index `depth - 1` compute it; `u32dec_eq_mod` below proves it
is `(d + 2^32 - 1) % 2^32` on the uint32 domain). -/
def u32dec (d : Nat) : Nat := if d = 0 then UINT32_MOD - 1 else d - 1

/-- From the source: `0xC0029B240D4A3092ULL + 1`. -/
def kHeaderCookie : Nat := 0xC0029B240D4A3092 + 1

/-- From the source: minimum depth a stack should support. -/
def kMinStackDepth : Nat := 2

/-- Modelled from the spec: `MAX_TRACKERS`, the capacity of the free list
(`kMaxThreadCount` is declared in the header file, which is not in src). -/
def kMaxThreadCount : Nat := 100

/-- Modelled from the spec: the NULL activity type sentinel ("A special NULL
type is used only as a sentinel"); the enum lives in the missing header. -/
def ACT_NULL : Nat := 0

/-- Modelled from the spec: the category bits of the 8-bit `activity_type`
tag ("4-bit category plus 4-bit sub-action"); high nibble is the category. -/
def ACT_CATEGORY_MASK : Nat := 0xF0

/-- Modelled from the spec: length of the optional fixed-length call-stack
array in a record; the constant is declared in the missing header. -/
def kActivityCallStackSize : Nat := 10

/-- Modelled from the spec: `sizeof(Header)` — all header fields have fixed
widths (8+8+8+8+8+4+4+4+32 bytes, padded to an 8-byte multiple). -/
def sizeofHeader : Nat := 88

/-- Modelled from the spec: `sizeof(Activity)` — fixed-size record
(8+8+10*8+1+7 padding+8 bytes of 64-bit aligned payload). -/
def sizeofActivity : Nat := 112

/-- The 64-bit `data` payload of a record.  In the source this is a union of
fixed-layout variants; `memcpy` and assignment move it as raw bytes, so it
is embedded as its raw 64-bit value. -/
structure ActivityData where
  raw : Nat
deriving DecidableEq, Repr

/-- From the source: `kNullActivityData` is a zero-filled `ActivityData`
whose *address* (not value) is the "do not change the payload" sentinel. -/
def kNullActivityData : ActivityData := ⟨0⟩

/-- One fixed-size activity record (`struct Activity`, fields per the spec's
record layout; the struct declaration is in the missing header).  In this
build (`SYZYASAN` disabled) `call_stack` is never written by any operation:
it keeps whatever the zeroed region held. -/
@[ext] structure Activity where
  time_internal : Int
  origin_address : Nat
  call_stack : List Nat
  activity_type : Nat
  data : ActivityData
deriving DecidableEq, Repr

/-- A zero-initialized record, as produced by zeroing the region. -/
def zeroActivity : Activity :=
  ⟨0, 0, List.replicate kActivityCallStackSize 0, 0, ⟨0⟩⟩

/-- The region header (`ThreadActivityTracker::Header` from the source).
`thread_name` is the 32-byte character buffer, embedded as its byte
function. -/
@[ext] structure Header where
  cookie : Nat
  process_id : Int
  thread_ref : Int
  start_time : Int
  start_ticks : Int
  stack_slots : Nat
  current_depth : Nat
  stack_unchanged : Nat
  thread_name : Nat → Nat

/-- One tracker's memory region: the header followed by the record slots.
`mem i` is the record at slot index `i`; indices at or beyond the slot
count exist in the model so that "this memory is never written" is
statable. -/
@[ext] structure Region where
  header : Header
  mem : Nat → Activity

/-- An all-zero region, as produced by the allocator or by
`ReturnTrackerMemory`'s `memset`. -/
def zeroRegion : Region :=
  { header := { cookie := 0, process_id := 0, thread_ref := 0, start_time := 0,
                start_ticks := 0, stack_slots := 0, current_depth := 0,
                stack_unchanged := 0, thread_name := fun _ => 0 },
    mem := fun _ => zeroActivity }

/-- The `ThreadActivityTracker` object's own members (the region it points
at is passed separately). -/
structure ThreadActivityTracker where
  stack_slots_ : Nat
  valid_ : Bool
deriving DecidableEq, Repr

/-- Length of the NUL-terminated string at the start of a 31-byte window of
a byte buffer (`strlen`, capped at 31 as the source always caps reads). -/
def strlen31 (f : Nat → Nat) : Nat :=
  ((List.range 31).takeWhile (fun i => f i ≠ 0)).length

/-- `strlcpy(dst, src, 32)`: copy at most 31 bytes of `src` up to its NUL,
write a NUL after them, leave the rest of `dst` untouched. -/
def strlcpy32 (src : Nat → Nat) (dst : Nat → Nat) : Nat → Nat :=
  fun i =>
    if i < strlen31 src then src i
    else if i = strlen31 src then 0
    else dst i

/-- The header predicates of `ThreadActivityTracker::IsValid` (everything
except the `valid_` member): cookie, non-zero ids and times, slot count
matching, NUL-terminated name. -/
def headerOk (slots : Nat) (h : Header) : Bool :=
  (h.cookie == kHeaderCookie) &&
  (h.process_id != 0) &&
  (h.thread_ref != 0) &&
  (h.start_time != 0) &&
  (h.start_ticks != 0) &&
  (h.stack_slots == slots) &&
  (h.thread_name 31 == 0)

/-- `ThreadActivityTracker::IsValid` from the source: all header predicates
hold and the construction-time `valid_` flag is set. -/
def IsValid (t : ThreadActivityTracker) (r : Region) : Bool :=
  headerOk t.stack_slots_ r.header && t.valid_

/-- The constructor's parameter validation (source lines 138-146): null
base, size too small for the header plus `kMinStackDepth` records, or a
slot count that overflows 32 bits.  The subtraction is `size_t`
subtraction, which wraps. -/
def ctorParamsInvalid (baseNull : Bool) (size : Nat) : Bool :=
  baseNull ||
  (size < sizeofHeader + kMinStackDepth * sizeofActivity) ||
  (sizetSub size sizeofHeader / sizeofActivity > UINT32_MOD - 1)

/-- `ThreadActivityTracker::ThreadActivityTracker(base, size)`.  `baseNull`
models `base == nullptr`; `r` is the memory the base points at (arbitrary
bytes when the parameters are invalid — the constructor never reads it on
that path).  `pid`, `tid`, `now`, `ticks`, `name` model
`GetCurrentProcId()`, the current thread handle, `Time::Now()`,
`TimeTicks::Now()` and `PlatformThread::GetName()`.  `stack_slots_` is
computed (with `size_t` wraparound and the `uint32_t` cast) before
validation, exactly as in the member-initializer list. -/
def trackerCtor (baseNull : Bool) (size : Nat) (r : Region)
    (pid tid now ticks : Int) (name : Nat → Nat) :
    ThreadActivityTracker × Region :=
  let slots := u32 (sizetSub size sizeofHeader / sizeofActivity)
  if ctorParamsInvalid baseNull size then
    ({ stack_slots_ := slots, valid_ := false }, r)
  else if r.header.cookie = 0 then
    -- initial birth: write the header fields, cookie, then process_id
    let h := { cookie := kHeaderCookie, process_id := pid, thread_ref := tid,
               start_time := now, start_ticks := ticks, stack_slots := slots,
               current_depth := r.header.current_depth,
               stack_unchanged := r.header.stack_unchanged,
               thread_name := strlcpy32 name r.header.thread_name }
    ({ stack_slots_ := slots, valid_ := true }, { r with header := h })
  else
    -- adoption of an existing region: valid_ = true then valid_ = IsValid()
    ({ stack_slots_ := slots, valid_ := headerOk slots r.header }, r)

/-- `ThreadActivityTracker::PushActivity`.  On overflow
(`depth >= stack_slots_`) only the depth counter is stored; otherwise the
record fields are written and the incremented depth is release-stored. -/
def PushActivity (t : ThreadActivityTracker) (r : Region)
    (origin : Nat) (type : Nat) (data : ActivityData) (now : Int) : Region :=
  let depth := r.header.current_depth
  if t.stack_slots_ ≤ depth then
    { r with header.current_depth := u32 (depth + 1) }
  else
    let a := r.mem depth
    let a1 := { a with time_internal := now, origin_address := origin,
                       activity_type := type, data := data }
    { r with mem := fun i => if i = depth then a1 else r.mem i,
             header.current_depth := u32 (depth + 1) }

/-- `ThreadActivityTracker::ChangeActivity`.  The source skips the payload
store when `&data == &kNullActivityData`, an address comparison;
`dataIsNullObj` models "the argument is the `kNullActivityData` object
itself".  The `uint32_t` index `depth - 1` wraps. -/
def ChangeActivity (t : ThreadActivityTracker) (r : Region)
    (type : Nat) (dataIsNullObj : Bool) (data : ActivityData) : Region :=
  let depth := r.header.current_depth
  if depth ≤ t.stack_slots_ then
    let idx := u32dec depth
    let a := r.mem idx
    let a1 := if type ≠ ACT_NULL then { a with activity_type := type } else a
    let a2 := if ¬ dataIsNullObj then { a1 with data := data } else a1
    { r with mem := fun i => if i = idx then a2 else r.mem i }
  else
    r

/-- `ThreadActivityTracker::PopActivity`: `fetch_sub(1)` on the depth
(`uint32_t`, wrapping) followed by the release store of 0 into
`stack_unchanged`. -/
def PopActivity (_t : ThreadActivityTracker) (r : Region) : Region :=
  { r with header.current_depth := u32dec r.header.current_depth,
           header.stack_unchanged := 0 }

/-! ### Writer micro-steps

Each constructor is one store the writer performs on the shared region;
`PushActivity`, `ChangeActivity` and `PopActivity` decompose into lists of
them (`pushSteps`, `changeSteps`, `popSteps`).  No writer step ever stores
a non-zero value into `stack_unchanged`. -/

inductive WStep where
  | writeTime (i : Nat) (v : Int)
  | writeOrigin (i : Nat) (v : Nat)
  | writeCallStack (i : Nat) (v : List Nat)
  | writeType (i : Nat) (v : Nat)
  | writeData (i : Nat) (v : ActivityData)
  | storeDepth (d : Nat)
  | decDepth
  | clearFlag
deriving DecidableEq, Repr

/-- Apply one writer micro-step to the region. -/
def applyWStep (r : Region) : WStep → Region
  | .writeTime i v =>
      { r with mem := fun j =>
          if j = i then { r.mem j with time_internal := v } else r.mem j }
  | .writeOrigin i v =>
      { r with mem := fun j =>
          if j = i then { r.mem j with origin_address := v } else r.mem j }
  | .writeCallStack i v =>
      { r with mem := fun j =>
          if j = i then { r.mem j with call_stack := v } else r.mem j }
  | .writeType i v =>
      { r with mem := fun j =>
          if j = i then { r.mem j with activity_type := v } else r.mem j }
  | .writeData i v =>
      { r with mem := fun j =>
          if j = i then { r.mem j with data := v } else r.mem j }
  | .storeDepth d => { r with header.current_depth := u32 d }
  | .decDepth =>
      { r with header.current_depth := u32dec r.header.current_depth }
  | .clearFlag => { r with header.stack_unchanged := 0 }

/-- Run a list of writer micro-steps in order. -/
def applyTrace (l : List WStep) (r : Region) : Region := l.foldl applyWStep r

/-- The micro-step decomposition of `PushActivity` when the current depth
reads as `depth`. -/
def pushSteps (t : ThreadActivityTracker) (depth : Nat)
    (origin : Nat) (type : Nat) (data : ActivityData) (now : Int) :
    List WStep :=
  if t.stack_slots_ ≤ depth then
    [.storeDepth (depth + 1)]
  else
    [.writeTime depth now, .writeOrigin depth origin, .writeType depth type,
     .writeData depth data, .storeDepth (depth + 1)]

/-- The micro-step decomposition of `ChangeActivity` when the current depth
reads as `depth`: a store of the type (unless NULL) and a store of the
payload (unless the argument is the `kNullActivityData` object), both to
the top slot; nothing at all above the slot limit. -/
def changeSteps (t : ThreadActivityTracker) (depth : Nat)
    (type : Nat) (dataIsNullObj : Bool) (data : ActivityData) : List WStep :=
  if depth ≤ t.stack_slots_ then
    let idx := u32dec depth
    (if type ≠ ACT_NULL then [.writeType idx type] else []) ++
    (if ¬ dataIsNullObj then [.writeData idx data] else [])
  else
    []

/-- The micro-step decomposition of `PopActivity`. -/
def popSteps : List WStep := [.decDepth, .clearFlag]

/-! ### Snapshot -/

/-- The output structure filled by `Snapshot` (declared in the missing
header; its fields are exactly the ones the source assigns). -/
structure ActivitySnapshot where
  activity_stack : List Activity
  activity_stack_depth : Nat
  thread_name : List Nat
  thread_id : Int
  process_id : Int
deriving DecidableEq, Repr

/-- A default-constructed `ActivitySnapshot`. -/
def emptySnapshot : ActivitySnapshot := ⟨[], 0, [], 0, 0⟩

/-- Reading the thread name as the source does: take all 31 leading bytes,
then truncate at the first NUL (`resize(strlen(...))`). -/
def readName (h : Header) : List Nat :=
  ((List.range 31).map h.thread_name).takeWhile (fun b => b ≠ 0)

/-- `std::vector::resize(n)` on the output stack: keep a prefix, append
value-initialized records when growing. -/
def vecResize (l : List Activity) (n : Nat) : List Activity :=
  l.take n ++ List.replicate (n - l.length) zeroActivity

/-- The attempt outcome: the copy validated (`success`), something changed
so the loop retries (`retry`), or the header went invalid and the call
returns false immediately (`hardFail`). -/
inductive AttemptRes where
  | success
  | retry
  | hardFail
deriving DecidableEq, Repr

/-- The interference schedule of one snapshot attempt: writer micro-step
traces for the gaps before the tear-flag store (`gPre`, 2 gaps), between
the tear-flag store and the tear-flag check (`gWin` — every trace in it is
applied inside that window), and after the check (`gPost`, 3 gaps). -/
structure AttemptSched where
  gPre : List (List WStep)
  gWin : List (List WStep)
  gPost : List (List WStep)
deriving Repr

/-- The quiet schedule: no writer activity. -/
def quietSched : AttemptSched := ⟨[], [], []⟩

/-- The record-copy loop of `Snapshot` (`memcpy` at field granularity,
fields in their declaration order): copies records `i, i+1, ...` while the
fuel lasts, reading the region afresh before each field so a concurrent
writer store lands in the copy exactly when the schedule says so.  Window
gap `1 + 5*i + j` runs before field `j` of record `i`. -/
def copyRecords (gWin : List (List WStep)) :
    Nat → Nat → Region → List Activity → Region × List Activity
  | _, 0, r, buf => (r, buf)
  | i, k + 1, r, buf =>
    let r0 := applyTrace (gWin.getD (1 + 5 * i) []) r
    let b0 := buf.set i
      { buf.getD i zeroActivity with time_internal := (r0.mem i).time_internal }
    let r1 := applyTrace (gWin.getD (1 + 5 * i + 1) []) r0
    let b1 := b0.set i
      { b0.getD i zeroActivity with origin_address := (r1.mem i).origin_address }
    let r2 := applyTrace (gWin.getD (1 + 5 * i + 2) []) r1
    let b2 := b1.set i
      { b1.getD i zeroActivity with call_stack := (r2.mem i).call_stack }
    let r3 := applyTrace (gWin.getD (1 + 5 * i + 3) []) r2
    let b3 := b2.set i
      { b2.getD i zeroActivity with activity_type := (r3.mem i).activity_type }
    let r4 := applyTrace (gWin.getD (1 + 5 * i + 4) []) r3
    let b4 := b3.set i
      { b3.getD i zeroActivity with data := (r4.mem i).data }
    copyRecords gWin (i + 1) k r4 b4

/-- Convert a copied record's time from ticks to wall time, as the success
path of `Snapshot` does. -/
def convertTimes (h : Header) (a : Activity) : Activity :=
  { a with time_internal := h.start_time + (a.time_internal - h.start_ticks) }

/-- One attempt of the `Snapshot` loop (source lines 338-419), with the
writer interference given by `s`.  Returns the region as the writer left
it, the (mutated-in-place) output snapshot, and the attempt outcome. -/
def snapshotAttempt (t : ThreadActivityTracker) (s : AttemptSched)
    (r0 : Region) (out0 : ActivitySnapshot) :
    Region × ActivitySnapshot × AttemptRes :=
  let rA := applyTrace (s.gPre.getD 0 []) r0
  let starting_process_id := rA.header.process_id
  let starting_thread_id := rA.header.thread_ref
  let rB := applyTrace (s.gPre.getD 1 []) rA
  -- seq-cst store of 1 into stack_unchanged
  let rC := { rB with header.stack_unchanged := 1 }
  let rD := applyTrace (s.gWin.getD 0 []) rC
  let depth := rD.header.current_depth
  let count := min depth t.stack_slots_
  let buf0 := vecResize out0.activity_stack count
  let rb := copyRecords s.gWin 0 count rD buf0
  -- any window interference not already consumed runs before the check
  let rF := applyTrace ((s.gWin.drop (1 + 5 * count)).flatten) rb.1
  if rF.header.stack_unchanged = 0 then
    (rF, { out0 with activity_stack := rb.2 }, .retry)
  else
    let out1 := { out0 with activity_stack := rb.2,
                            activity_stack_depth := depth }
    let rG := applyTrace (s.gPost.getD 0 []) rF
    let out2 := { out1 with thread_name := readName rG.header,
                            thread_id := rG.header.thread_ref }
    let rH := applyTrace (s.gPost.getD 1 []) rG
    let out3 := { out2 with process_id := rH.header.process_id }
    if out3.process_id ≠ starting_process_id ∨
        out3.thread_id ≠ starting_thread_id then
      (rH, out3, .retry)
    else
      let rI := applyTrace (s.gPost.getD 2 []) rH
      if IsValid t rI = false then
        (rI, out3, .hardFail)
      else
        let out4 := { out3 with activity_stack :=
            out3.activity_stack.map (convertTimes rI.header) }
        (rI, out4, .success)

/-- The retry loop of `Snapshot` (`kMaxAttempts = 10` in the caller). -/
def snapshotLoop (t : ThreadActivityTracker) :
    Nat → List AttemptSched → Region → ActivitySnapshot →
    Bool × Region × ActivitySnapshot
  | 0, _, r, out => (false, r, out)
  | n + 1, scheds, r, out =>
    match snapshotAttempt t (scheds.headD quietSched) r out with
    | (r1, out1, .success) => (true, r1, out1)
    | (r1, out1, .hardFail) => (false, r1, out1)
    | (r1, out1, .retry) => snapshotLoop t n scheds.tail r1 out1

/-- `ThreadActivityTracker::Snapshot`: fail fast when the region is invalid
at entry (before anything is written to the output), otherwise run up to 10
attempts.  `scheds` is the writer interference, one schedule per attempt
(empty list: a quiet snapshot with no concurrent writer). -/
def Snapshot (t : ThreadActivityTracker) (scheds : List AttemptSched)
    (r : Region) (out : ActivitySnapshot) :
    Bool × Region × ActivitySnapshot :=
  if IsValid t r = false then (false, r, out)
  else snapshotLoop t 10 scheds r out

/-! ### The single-writer reference model -/

/-- A writer operation. -/
inductive Op where
  | push (origin : Nat) (type : Nat) (data : ActivityData) (now : Int)
  | change (type : Nat) (dataIsNullObj : Bool) (data : ActivityData)
  | pop
deriving Repr

/-- The naive reference model: the stack is simply the list of records in
push order, unbounded; change edits the last record; pop drops it. -/
def naiveStep (L : List Activity) : Op → List Activity
  | .push o ty d now =>
      L ++ [{ time_internal := now, origin_address := o,
              call_stack := List.replicate kActivityCallStackSize 0,
              activity_type := ty, data := d }]
  | .change ty sent d =>
      match L.getLast? with
      | none => L
      | some a =>
        let a1 := if ty ≠ ACT_NULL then { a with activity_type := ty } else a
        let a2 := if ¬ sent then { a1 with data := d } else a1
        L.dropLast ++ [a2]
  | .pop => L.dropLast

/-- Run the reference model over an operation sequence. -/
def naiveRun (ops : List Op) : List Activity := ops.foldl naiveStep []

/-- Apply one operation to the real tracker state. -/
def opApply (t : ThreadActivityTracker) (r : Region) : Op → Region
  | .push o ty d now => PushActivity t r o ty d now
  | .change ty s d => ChangeActivity t r ty s d
  | .pop => PopActivity t r

/-- Run an operation sequence on the real tracker state. -/
def opsRun (t : ThreadActivityTracker) (r : Region) (ops : List Op) : Region :=
  ops.foldl (opApply t) r

/-- Well-formedness of an operation sequence starting at depth `n`: change
and pop require a non-empty stack (the source `DCHECK`s exactly this). -/
def wfFrom : Nat → List Op → Bool
  | _, [] => true
  | n, .push _ _ _ _ :: rest => wfFrom (n + 1) rest
  | n, .change _ _ _ :: rest => decide (0 < n) && wfFrom n rest
  | n, .pop :: rest => decide (0 < n) && wfFrom (n - 1) rest

/-! ### The global registry's lock-free free list

State and thread programs of the free-list push loop in
`GlobalActivityTracker::ReturnTrackerMemory` (source lines 650-687) and the
free-list pop loop in
`GlobalActivityTracker::CreateTrackerForCurrentThread` (source lines
500-537), at the granularity of one atomic access per step. -/

/-- The shared free-list state: `available_memories_` (slot `i` holds a
persistent-memory reference, 0 meaning empty) and
`available_memories_count_`. -/
structure FreeList where
  slots : Nat → Nat
  count : Nat

/-- Update one slot. -/
def setSlot (f : Nat → Nat) (i v : Nat) : Nat → Nat :=
  fun j => if j = i then v else f j

/-- Program counter of a pusher thread (the loop of
`ReturnTrackerMemory`): load the count, CAS the slot from 0, CAS the count
up, or zero the slot back out after a failed count CAS.  `done true` means
the reference was published; `done false` means the list was full and the
reference was abandoned. -/
inductive PusherPC where
  | start
  | slotCas (c : Nat)
  | countCas (c : Nat)
  | clearSlot (c : Nat)
  | done (pushed : Bool)
deriving DecidableEq, Repr

/-- A pusher thread: the reference it is returning plus its pc. -/
structure Pusher where
  ref : Nat
  pc : PusherPC
deriving DecidableEq, Repr

/-- Program counter of a popper thread (the loop of
`CreateTrackerForCurrentThread`): load the count, exchange slot `c-1` with
0, CAS the count down, or restore the reference after a failed count CAS
(the code then reuses the CAS-observed `oldcount` without reloading).
`donePop r` means reference `r` was taken; `doneEmpty` means the loop saw
count 0 and fell through to fresh allocation. -/
inductive PopperPC where
  | start
  | exch (c : Nat)
  | countCas (c : Nat) (r : Nat)
  | restore (c : Nat) (r : Nat) (oldcount : Nat)
  | donePop (r : Nat)
  | doneEmpty
deriving DecidableEq, Repr

/-- A popper thread. -/
structure Popper where
  pc : PopperPC
deriving DecidableEq, Repr

/-- One atomic step of a pusher. -/
def pusherStep (fl : FreeList) (p : Pusher) : FreeList × Pusher :=
  match p.pc with
  | .start =>
      if kMaxThreadCount ≤ fl.count then (fl, { p with pc := .done false })
      else (fl, { p with pc := .slotCas fl.count })
  | .slotCas c =>
      if fl.slots c = 0 then
        ({ fl with slots := setSlot fl.slots c p.ref },
         { p with pc := .countCas c })
      else (fl, { p with pc := .start })
  | .countCas c =>
      if fl.count = c then
        ({ fl with count := c + 1 }, { p with pc := .done true })
      else (fl, { p with pc := .clearSlot c })
  | .clearSlot c =>
      ({ fl with slots := setSlot fl.slots c 0 }, { p with pc := .start })
  | .done _ => (fl, p)

/-- One atomic step of a popper.  The third component reports whether this
step's `DCHECK_LT(count, oldcount)` was violated (release builds continue
past it). -/
def popperStep (fl : FreeList) (q : Popper) : FreeList × Popper × Bool :=
  match q.pc with
  | .start =>
      if fl.count = 0 then (fl, { q with pc := .doneEmpty }, false)
      else (fl, { q with pc := .exch fl.count }, false)
  | .exch c =>
      let r := fl.slots (c - 1)
      if r = 0 then
        ({ fl with slots := setSlot fl.slots (c - 1) 0 },
         { q with pc := .start }, false)
      else
        ({ fl with slots := setSlot fl.slots (c - 1) 0 },
         { q with pc := .countCas c r }, false)
  | .countCas c r =>
      if fl.count = c then
        ({ fl with count := c - 1 }, { q with pc := .donePop r }, false)
      else
        (fl, { q with pc := .restore c r fl.count },
         decide (¬ c < fl.count))
  | .restore c r oldcount =>
      ({ fl with slots := setSlot fl.slots (c - 1) r },
       { q with pc := if oldcount = 0 then .doneEmpty else .exch oldcount },
       false)
  | .donePop _ => (fl, q, false)
  | .doneEmpty => (fl, q, false)

/-- The whole free-list system: shared state, the pusher and popper
threads, and whether any `DCHECK` has been violated so far. -/
structure FreeListSys where
  fl : FreeList
  pushers : List Pusher
  poppers : List Popper
  dcheckViolated : Bool

/-- A scheduler choice: which thread takes the next atomic step. -/
inductive Tid where
  | pusherT (i : Nat)
  | popperT (i : Nat)
deriving DecidableEq, Repr

/-- Run one scheduled step. -/
def sysStep (s : FreeListSys) : Tid → FreeListSys
  | .pusherT i =>
      match s.pushers.get? i with
      | none => s
      | some p =>
        let fp := pusherStep s.fl p
        { s with fl := fp.1, pushers := s.pushers.set i fp.2 }
  | .popperT i =>
      match s.poppers.get? i with
      | none => s
      | some q =>
        let fq := popperStep s.fl q
        { s with fl := fq.1, poppers := s.poppers.set i fq.2.1,
                 dcheckViolated := s.dcheckViolated || fq.2.2 }

/-- Run a schedule. -/
def runSys (s : FreeListSys) (sched : List Tid) : FreeListSys :=
  sched.foldl sysStep s

/-- Run a single pusher with no other threads, with fuel (used for the
sequential `ReturnTrackerMemory` path). -/
def runPusherSolo : Nat → FreeList → Pusher → FreeList × Pusher
  | 0, fl, p => (fl, p)
  | n + 1, fl, p =>
    match p.pc with
    | .done _ => (fl, p)
    | _ =>
      let fp := pusherStep fl p
      runPusherSolo n fp.1 fp.2

/-- `GlobalActivityTracker::ReturnTrackerMemory`, sequential (no concurrent
free-list traffic): `memset` the whole block to zero, then either push the
reference onto the free list (allocator-backed, `memRef ≠ 0`) or free the
heap block (`memRef = 0`).  Returns the new free list, the zeroed region,
the final pusher state, and whether the heap fallback `delete[]` ran. -/
def ReturnTrackerMemory (fl : FreeList) (memRef : Nat) (_r : Region) :
    FreeList × Region × Pusher × Bool :=
  let zeroed := zeroRegion
  if memRef ≠ 0 then
    let fp := runPusherSolo 4 fl ⟨memRef, .start⟩
    (fp.1, zeroed, fp.2, false)
  else
    (fl, zeroed, ⟨0, .done false⟩, true)

/-! ### Concrete scenarios used by counterexamples and witnesses -/

/-- A tracker with 2 stack slots over a valid region. -/
def T2 : ThreadActivityTracker := ⟨2, true⟩

/-- A fully written record in slot 0: type `0x61` (category `0x60`, action
1), payload 11. -/
def recA : Activity :=
  ⟨100, 4096, List.replicate kActivityCallStackSize 0, 0x61, ⟨11⟩⟩

/-- `recA` after `ChangeActivity(0x67, data 22)`: same category, new action
bits and payload. -/
def recChanged : Activity :=
  ⟨100, 4096, List.replicate kActivityCallStackSize 0, 0x67, ⟨22⟩⟩

/-- A valid region for `T2` holding exactly `recA` at depth 1. -/
def R2 : Region :=
  { header := { cookie := kHeaderCookie, process_id := 7, thread_ref := 5,
                start_time := 3, start_ticks := 4, stack_slots := 2,
                current_depth := 1, stack_unchanged := 0,
                thread_name := fun _ => 0 },
    mem := fun i => if i = 0 then recA else zeroActivity }

/-- Interference for one snapshot attempt in which the writer's whole
`ChangeActivity(0x67, data 22)` (both of its stores) runs between the
snapshot's copy of the record's `activity_type` and its copy of the
record's `data`: window gap 5 is the gap just before the data-field copy
of record 0. -/
def tornSched : AttemptSched :=
  ⟨[], [[], [], [], [], [], changeSteps T2 1 0x67 false ⟨22⟩], []⟩

/-- Interference for one snapshot attempt in which the writer pops and
re-pushes the same activity after the copy finished but before the
tear-flag check: the pop's `stack_unchanged := 0` store makes the attempt
retry. -/
def failSched : AttemptSched :=
  ⟨[], [[], [], [], [], [], [],
        [.decDepth, .clearFlag, .writeTime 0 100, .writeOrigin 0 4096,
         .writeType 0 0x61, .writeData 0 ⟨11⟩, .storeDepth 1]], []⟩

/-- The same interference on all 10 snapshot attempts: retry exhaustion. -/
def c6Scheds : List AttemptSched := List.replicate 10 failSched

/-- The operation sequence of spec scenario S2 (with N = 2): push A, push
B, push C (overflow), pop. -/
def opsS2 : List Op :=
  [.push 1 0x61 ⟨1⟩ 10, .push 2 0x61 ⟨2⟩ 20, .push 3 0x61 ⟨3⟩ 30, .pop]

/-- Initial free-list system for the C8 interleaving: one reference (10)
already on the list, three exiting threads returning references 20, 30, 40
(pushers P, P2, P5) and two starting threads (poppers Q, R). -/
def c8init : FreeListSys :=
  { fl := { slots := fun i => if i = 0 then 10 else 0, count := 1 },
    pushers := [⟨20, .start⟩, ⟨30, .start⟩, ⟨40, .start⟩],
    poppers := [⟨.start⟩, ⟨.start⟩],
    dcheckViolated := false }

/-- The interleaving: P loads count 1 and parks; P2 pushes 30 (count 2);
Q exchanges slot 1 and takes 30; P's parked slot CAS fills slot 1 with 20;
R takes 20 and decrements the count to 1; P5 claims slot 1 with 40; Q's
count CAS fails (count went *down*, violating its DCHECK) so Q blindly
restores 30 into slot 1, overwriting 40; P5's count CAS succeeds (count 2,
but slot 1 now holds 30, not 40); P's count CAS fails so P blindly zeroes
slot 1, destroying 30; P then retries and pushes 20 into slot 2 even
though R is already using reference 20. -/
def c8sched : List Tid :=
  [.pusherT 0, .pusherT 1, .pusherT 1, .pusherT 1,
   .popperT 0, .popperT 0, .pusherT 0,
   .popperT 1, .popperT 1, .popperT 1,
   .pusherT 2, .pusherT 2,
   .popperT 0, .popperT 0,
   .pusherT 2, .pusherT 0, .pusherT 0, .pusherT 0, .pusherT 0, .pusherT 0]

/-- Push k activities (with the given parameters) in order. -/
def pushMany (t : ThreadActivityTracker) (r : Region)
    (ps : List (Nat × Nat × ActivityData × Int)) : Region :=
  ps.foldl (fun r p => PushActivity t r p.1 p.2.1 p.2.2.1 p.2.2.2) r

/-- Pop k times. -/
def popMany (t : ThreadActivityTracker) : Nat → Region → Region
  | 0, r => r
  | k + 1, r => popMany t k (PopActivity t r)

/-- The writer micro-steps of the copy window of one snapshot attempt that
`copyRecords` consumes for records `i, ..., i+k-1`, in consumption order. -/
def winSlice (gWin : List (List WStep)) : Nat → Nat → List WStep
  | _, 0 => []
  | i, k + 1 =>
    gWin.getD (1 + 5 * i) [] ++ (gWin.getD (1 + 5 * i + 1) [] ++
    (gWin.getD (1 + 5 * i + 2) [] ++ (gWin.getD (1 + 5 * i + 3) [] ++
    (gWin.getD (1 + 5 * i + 4) [] ++ winSlice gWin (i + 1) k))))

/-- The simulation invariant tying the real tracker region to the naive
reference stack `L`: the immutable header fields still hold their values
from `h0`, the depth is the naive stack's length, every slot below
`min L.length stack_slots_` holds the corresponding naive record, and (in
this build) no record's `call_stack` has ever been written. -/
structure SimInv (t : ThreadActivityTracker) (h0 : Header)
    (L : List Activity) (r : Region) : Prop where
  cookie : r.header.cookie = h0.cookie
  pid : r.header.process_id = h0.process_id
  tid : r.header.thread_ref = h0.thread_ref
  stime : r.header.start_time = h0.start_time
  sticks : r.header.start_ticks = h0.start_ticks
  slots : r.header.stack_slots = h0.stack_slots
  tname : r.header.thread_name = h0.thread_name
  depth : r.header.current_depth = L.length
  stack : ∀ i, i < min L.length t.stack_slots_ →
    r.mem i = L.getD i zeroActivity
  cstack : ∀ i, (r.mem i).call_stack = List.replicate kActivityCallStackSize 0

/-! ## Theorems -/

/-- `u32` is truncation modulo 2^32. -/
lemma u32_eq_mod (n : Nat) : u32 n = n % UINT32_MOD := by
  have h : UINT32_MOD = 2 ^ 32 := by norm_num [UINT32_MOD]
  rw [u32, h]
  exact Nat.and_pow_two_sub_one_eq_mod n 32

/-- `sizetSub` is wrapping `size_t` subtraction on the size_t domain. -/
lemma sizetSub_eq_mod (a b : Nat) (ha : a < SIZE_T_MOD) (hb : b ≤ SIZE_T_MOD) :
    sizetSub a b = (a + SIZE_T_MOD - b) % SIZE_T_MOD := by
  rw [sizetSub]
  by_cases h : b ≤ a
  · rw [if_pos h]
    have h1 : a + SIZE_T_MOD - b = (a - b) + SIZE_T_MOD := by omega
    rw [h1, Nat.add_mod_right, Nat.mod_eq_of_lt (by omega)]
  · rw [if_neg h]
    rw [Nat.mod_eq_of_lt (by omega)]
    omega

/-- `u32dec` is wrapping uint32 decrement on the uint32 domain. -/
lemma u32dec_eq_mod (d : Nat) (h : d < UINT32_MOD) :
    u32dec d = (d + UINT32_MOD - 1) % UINT32_MOD := by
  rw [u32dec]
  by_cases h0 : d = 0
  · rw [if_pos h0, h0]
    simp
  · rw [if_neg h0]
    have h1 : d + UINT32_MOD - 1 = (d - 1) + UINT32_MOD := by omega
    rw [h1, Nat.add_mod_right, Nat.mod_eq_of_lt (by omega)]

/-- `u32` is the identity below 2^32. -/
lemma u32_of_lt {n : Nat} (h : n < UINT32_MOD) : u32 n = n := by
  rw [u32_eq_mod]
  exact Nat.mod_eq_of_lt h

/-- Decrementing a positive uint32 value is plain subtraction. -/
lemma depth_dec_u32 (d : Nat) (h1 : 0 < d) (h2 : d < UINT32_MOD) :
    u32dec d = d - 1 := by
  rw [u32dec, if_neg (by omega)]

/-- A push at or above the slot limit only stores the incremented depth. -/
lemma push_overflow (t : ThreadActivityTracker) (r : Region)
    (o ty : Nat) (d : ActivityData) (now : Int)
    (h : t.stack_slots_ ≤ r.header.current_depth) :
    PushActivity t r o ty d now =
      { r with header.current_depth :=
          (u32 (r.header.current_depth + 1)) } := by
  simp only [PushActivity, if_pos h]

/-- Repeated pushes that all start at or above the slot limit leave memory
alone and only advance the depth counter. -/
lemma pushMany_overflow (t : ThreadActivityTracker) :
    ∀ (ps : List (Nat × Nat × ActivityData × Int)) (r : Region),
      t.stack_slots_ ≤ r.header.current_depth →
      r.header.current_depth + ps.length < UINT32_MOD →
      (pushMany t r ps).mem = r.mem ∧
      (pushMany t r ps).header.current_depth =
        r.header.current_depth + ps.length ∧
      (pushMany t r ps).header.stack_unchanged =
        r.header.stack_unchanged := by
  intro ps
  induction ps with
  | nil =>
    intro r _ _
    exact ⟨rfl, by simp [pushMany], rfl⟩
  | cons p rest ih =>
    intro r hover hbound
    have hlen : (p :: rest).length = rest.length + 1 := rfl
    rw [hlen] at hbound
    have hlt : r.header.current_depth + 1 < UINT32_MOD := by omega
    have hstep : PushActivity t r p.1 p.2.1 p.2.2.1 p.2.2.2 =
        { r with header.current_depth := r.header.current_depth + 1 } := by
      rw [push_overflow t r _ _ _ _ hover, u32_of_lt hlt]
    have h1 : pushMany t r (p :: rest) =
        pushMany t { r with header.current_depth :=
          r.header.current_depth + 1 } rest := by
      rw [pushMany, List.foldl_cons, hstep]
      rfl
    have ih2 := ih { r with header.current_depth :=
        r.header.current_depth + 1 }
      (Nat.le_succ_of_le hover) (by show _ + 1 + _ < _; omega)
    rw [h1]
    refine ⟨ih2.1, ?_, ih2.2.2⟩
    rw [ih2.2.1]
    show r.header.current_depth + 1 + rest.length = _
    rw [hlen]
    omega

/-- Pops never write record memory and decrement the depth. -/
lemma popMany_eq (t : ThreadActivityTracker) :
    ∀ (k : Nat) (r : Region), k ≤ r.header.current_depth →
      r.header.current_depth < UINT32_MOD →
      (popMany t k r).mem = r.mem ∧
      (popMany t k r).header.current_depth = r.header.current_depth - k := by
  intro k
  induction k with
  | zero => intro r _ _; exact ⟨rfl, rfl⟩
  | succ n ih =>
    intro r hk hU
    have hpop : (PopActivity t r).header.current_depth =
        r.header.current_depth - 1 := by
      show u32dec r.header.current_depth = _
      exact depth_dec_u32 _ (by omega) hU
    have hmem : (PopActivity t r).mem = r.mem := rfl
    have hrec := ih (PopActivity t r) (by rw [hpop]; omega) (by rw [hpop]; omega)
    have hstep : popMany t (n + 1) r = popMany t n (PopActivity t r) := rfl
    rw [hstep]
    refine ⟨by rw [hrec.1, hmem], ?_⟩
    rw [hrec.2, hpop]
    omega

/-- C3: a `PushActivity` at or above the slot limit stores `depth + 1` and
writes no record memory; after `k` overflow pushes and `k` pops the entire
record memory (in particular the top-of-stack slot `N - 1` and every slot
at index `≥ N`) is exactly what it was before, and the depth is back to
its old value. -/
theorem c3_overflow_pushes_never_write_memory
    (t : ThreadActivityTracker) (r : Region)
    (ps : List (Nat × Nat × ActivityData × Int))
    (hover : t.stack_slots_ ≤ r.header.current_depth)
    (hbound : r.header.current_depth + ps.length < UINT32_MOD) :
    (∀ o ty d now, PushActivity t r o ty d now =
      { r with header.current_depth :=
          (u32 (r.header.current_depth + 1)) }) ∧
    (popMany t ps.length (pushMany t r ps)).mem = r.mem ∧
    (popMany t ps.length (pushMany t r ps)).mem (t.stack_slots_ - 1) =
      r.mem (t.stack_slots_ - 1) ∧
    (∀ i, t.stack_slots_ ≤ i →
      (popMany t ps.length (pushMany t r ps)).mem i = r.mem i) ∧
    (popMany t ps.length (pushMany t r ps)).header.current_depth =
      r.header.current_depth := by
  have hpush := pushMany_overflow t ps r hover hbound
  have hdepth : (pushMany t r ps).header.current_depth =
      r.header.current_depth + ps.length := hpush.2.1
  have hpop := popMany_eq t ps.length (pushMany t r ps)
    (by rw [hdepth]; omega) (by rw [hdepth]; omega)
  have hmem : (pushMany t r ps).mem = r.mem := hpush.1
  refine ⟨fun o ty d now => push_overflow t r o ty d now hover, ?_, ?_, ?_, ?_⟩
  · rw [hpop.1, hmem]
  · rw [hpop.1, hmem]
  · intro i _
    rw [hpop.1, hmem]
  · rw [hpop.2, hdepth]
    omega

/-- Witness for C3: slots = 2, start at depth 2, one overflow push and one
pop. -/
theorem c3_witness :
    T2.stack_slots_ ≤
      ({ R2 with header.current_depth := 2 } : Region).header.current_depth ∧
    ({ R2 with header.current_depth := 2 } : Region).header.current_depth +
      [((9 : Nat), (0x61 : Nat), (⟨9⟩ : ActivityData), (9 : Int))].length <
      UINT32_MOD ∧
    (popMany T2 1 (pushMany T2 { R2 with header.current_depth := 2 }
        [(9, 0x61, ⟨9⟩, 9)])).header.current_depth = 2 :=
  ⟨by decide, by decide,
   (c3_overflow_pushes_never_write_memory T2
      { R2 with header.current_depth := 2 } [(9, 0x61, ⟨9⟩, 9)]
      (by decide) (by decide)).2.2.2.2⟩

/-- C4: `ChangeActivity` with a non-NULL type (whose category bits match
the top record's, as the source asserts) replaces the type so the category
bits are unchanged; with `ACT_NULL` the type is untouched; with the
null-payload sentinel the payload is untouched; and above the slot limit
it modifies nothing at all. -/
theorem c4_change_preserves_category
    (t : ThreadActivityTracker) (r : Region) (ty : Nat) (sent : Bool)
    (d : ActivityData)
    (hd : 0 < r.header.current_depth)
    (hU : r.header.current_depth < UINT32_MOD) :
    (r.header.current_depth ≤ t.stack_slots_ →
      (ty ≠ ACT_NULL →
        ((ChangeActivity t r ty sent d).mem
            (r.header.current_depth - 1)).activity_type = ty ∧
        (ty &&& ACT_CATEGORY_MASK =
            (r.mem (r.header.current_depth - 1)).activity_type &&&
              ACT_CATEGORY_MASK →
          ((ChangeActivity t r ty sent d).mem
              (r.header.current_depth - 1)).activity_type &&&
            ACT_CATEGORY_MASK =
          (r.mem (r.header.current_depth - 1)).activity_type &&&
            ACT_CATEGORY_MASK)) ∧
      (ty = ACT_NULL →
        ((ChangeActivity t r ty sent d).mem
            (r.header.current_depth - 1)).activity_type =
          (r.mem (r.header.current_depth - 1)).activity_type) ∧
      (sent = true →
        ((ChangeActivity t r ty sent d).mem
            (r.header.current_depth - 1)).data =
          (r.mem (r.header.current_depth - 1)).data)) ∧
    (t.stack_slots_ < r.header.current_depth →
      ChangeActivity t r ty sent d = r) := by
  constructor
  · intro hle
    simp only [ChangeActivity, if_pos hle, depth_dec_u32 _ hd hU]
    refine ⟨?_, ?_, ?_⟩
    · intro hne
      constructor
      · by_cases hs : sent <;> simp [hne, hs]
      · intro hcat
        by_cases hs : sent <;> simp [hne, hs, hcat]
    · intro hnull
      by_cases hs : sent <;> simp [hnull, hs]
    · intro hs
      by_cases hn : ty ≠ ACT_NULL <;> simp [hn, hs]
  · intro hgt
    simp only [ChangeActivity, if_neg (by omega : ¬ r.header.current_depth ≤ t.stack_slots_)]

/-- Witness for C4: change `0x61 → 0x67` (same category `0x60`) at depth 1
on `R2`. -/
theorem c4_witness :
    0 < R2.header.current_depth ∧ R2.header.current_depth < UINT32_MOD ∧
    ((ChangeActivity T2 R2 0x67 false ⟨22⟩).mem
        (R2.header.current_depth - 1)).activity_type = 0x67 :=
  ⟨by decide, by decide,
   (((c4_change_preserves_category T2 R2 0x67 false ⟨22⟩
      (by decide) (by decide)).1 (by decide)).1 (by decide)).1⟩

/-- C9: `ChangeActivity` modifies at most the topmost record's type and
payload: the entire header (including `current_depth` and
`stack_unchanged`) is untouched, every other slot is untouched, and even
in the top slot the time, origin and call-stack fields are untouched. -/
theorem c9_change_frame
    (t : ThreadActivityTracker) (r : Region) (ty : Nat) (sent : Bool)
    (d : ActivityData)
    (hd : 0 < r.header.current_depth)
    (hU : r.header.current_depth < UINT32_MOD) :
    (ChangeActivity t r ty sent d).header = r.header ∧
    (∀ i, i ≠ r.header.current_depth - 1 →
      (ChangeActivity t r ty sent d).mem i = r.mem i) ∧
    ((ChangeActivity t r ty sent d).mem
        (r.header.current_depth - 1)).time_internal =
      (r.mem (r.header.current_depth - 1)).time_internal ∧
    ((ChangeActivity t r ty sent d).mem
        (r.header.current_depth - 1)).origin_address =
      (r.mem (r.header.current_depth - 1)).origin_address ∧
    ((ChangeActivity t r ty sent d).mem
        (r.header.current_depth - 1)).call_stack =
      (r.mem (r.header.current_depth - 1)).call_stack := by
  by_cases hle : r.header.current_depth ≤ t.stack_slots_
  · refine ⟨?_, ?_, ?_, ?_, ?_⟩
    · simp only [ChangeActivity, if_pos hle]
    · intro i hi
      simp only [ChangeActivity, if_pos hle, depth_dec_u32 _ hd hU]
      simp [hi]
    all_goals
      simp only [ChangeActivity, if_pos hle, depth_dec_u32 _ hd hU]
    all_goals
      by_cases hn : ty ≠ ACT_NULL <;> by_cases hs : sent <;> simp [hn, hs]
  · simp [ChangeActivity, if_neg hle]

/-- Witness for C9 at `R2`. -/
theorem c9_witness :
    0 < R2.header.current_depth ∧ R2.header.current_depth < UINT32_MOD ∧
    (ChangeActivity T2 R2 0x67 false ⟨22⟩).header = R2.header :=
  ⟨by decide, by decide,
   (c9_change_frame T2 R2 0x67 false ⟨22⟩ (by decide) (by decide)).1⟩

/-- C10: the payload skip is decided by whether the argument *is* the
`kNullActivityData` object (an address comparison), not by its value: any
non-sentinel argument — including one bitwise-equal to
`kNullActivityData` — overwrites the top payload, while the sentinel
argument always leaves it unchanged. -/
theorem c10_null_data_is_address_identity
    (t : ThreadActivityTracker) (r : Region) (ty : Nat)
    (hd : 0 < r.header.current_depth)
    (hU : r.header.current_depth < UINT32_MOD)
    (hle : r.header.current_depth ≤ t.stack_slots_) :
    (∀ dv : ActivityData,
      ((ChangeActivity t r ty false dv).mem
          (r.header.current_depth - 1)).data = dv) ∧
    (∀ dv : ActivityData,
      ((ChangeActivity t r ty true dv).mem
          (r.header.current_depth - 1)).data =
        (r.mem (r.header.current_depth - 1)).data) := by
  constructor <;> intro dv <;>
    simp only [ChangeActivity, if_pos hle, depth_dec_u32 _ hd hU] <;>
    by_cases hn : ty ≠ ACT_NULL <;> simp [hn]

/-- Witness for C10: passing a value bitwise-equal to `kNullActivityData`
(but not the object itself) still overwrites the payload. -/
theorem c10_witness :
    0 < R2.header.current_depth ∧ R2.header.current_depth < UINT32_MOD ∧
    R2.header.current_depth ≤ T2.stack_slots_ ∧
    ((ChangeActivity T2 R2 0x67 false kNullActivityData).mem
        (R2.header.current_depth - 1)).data = kNullActivityData :=
  ⟨by decide, by decide, by decide,
   (c10_null_data_is_address_identity T2 R2 0x67
      (by decide) (by decide) (by decide)).1 kNullActivityData⟩

/-- C5: for a null base, an undersized region, or a size whose slot count
overflows 32 bits, the constructor completes without touching the region
and leaves `valid_ = false`; `IsValid` is then false no matter what bytes
the header holds, and `Snapshot` fails without reading the stack or
writing the output.  (Freedom from memory faults is expressed by the
operations being total functions of the modelled state.) -/
theorem c5_invalid_construction_is_harmless
    (bn : Bool) (size : Nat) (r : Region) (pid tid now ticks : Int)
    (name : Nat → Nat)
    (h : ctorParamsInvalid bn size = true) :
    (trackerCtor bn size r pid tid now ticks name).2 = r ∧
    (trackerCtor bn size r pid tid now ticks name).1.valid_ = false ∧
    (∀ r2 : Region,
      IsValid (trackerCtor bn size r pid tid now ticks name).1 r2 = false) ∧
    (∀ (r2 : Region) (scheds : List AttemptSched) (out : ActivitySnapshot),
      Snapshot (trackerCtor bn size r pid tid now ticks name).1 scheds r2 out =
        (false, r2, out)) := by
  have hctor : trackerCtor bn size r pid tid now ticks name =
      ({ stack_slots_ := u32 (sizetSub size sizeofHeader / sizeofActivity),
         valid_ := false }, r) := by
    simp only [trackerCtor, h, if_true]
  rw [hctor]
  have hiv : ∀ r2 : Region, IsValid
      ({ stack_slots_ := u32 (sizetSub size sizeofHeader / sizeofActivity),
         valid_ := false } :
        ThreadActivityTracker) r2 = false := by
    intro r2
    simp [IsValid]
  refine ⟨rfl, rfl, hiv, ?_⟩
  intro r2 scheds out
  simp [Snapshot, hiv r2]

/-- Witness for C5: a null base. -/
theorem c5_witness :
    ctorParamsInvalid true 0 = true ∧
    (trackerCtor true 0 zeroRegion 7 5 3 4 (fun _ => 0)).1.valid_ = false :=
  ⟨by decide,
   (c5_invalid_construction_is_harmless true 0 zeroRegion 7 5 3 4
      (fun _ => 0) (by decide)).2.1⟩

/-- C6 (amended): when `Snapshot` fails because the region is invalid at
entry it returns with the output untouched; the other failure paths do not
clear the output (see the counterexample). -/
theorem c6_amended_invalid_entry_leaves_output_untouched
    (t : ThreadActivityTracker) (scheds : List AttemptSched) (r : Region)
    (out : ActivitySnapshot)
    (h : IsValid t r = false) :
    Snapshot t scheds r out = (false, r, out) := by
  simp [Snapshot, h]

/-- Witness for the amended C6: any tracker over the zeroed region. -/
theorem c6_amended_witness :
    IsValid T2 zeroRegion = false ∧
    Snapshot T2 [] zeroRegion emptySnapshot = (false, zeroRegion, emptySnapshot) :=
  ⟨by decide,
   c6_amended_invalid_entry_leaves_output_untouched T2 [] zeroRegion
     emptySnapshot (by decide)⟩

/-- C7: `ReturnTrackerMemory` zeroes the whole block, so its `process_id`
reads as zero and `IsValid` fails, and a `Snapshot` of it between thread
exit and reuse returns failure with the output untouched; the zeroed
block's reference is pushed onto the free list when it is
allocator-backed, and the block is heap-freed instead when it is not. -/
theorem c7_recycled_block_is_zeroed
    (fl : FreeList) (memRef : Nat) (r : Region)
    (t : ThreadActivityTracker) (scheds : List AttemptSched)
    (out : ActivitySnapshot)
    (hcount : fl.count < kMaxThreadCount)
    (hslot : fl.slots fl.count = 0) :
    (ReturnTrackerMemory fl memRef r).2.1 = zeroRegion ∧
    (ReturnTrackerMemory fl memRef r).2.1.header.process_id = 0 ∧
    IsValid t (ReturnTrackerMemory fl memRef r).2.1 = false ∧
    Snapshot t scheds (ReturnTrackerMemory fl memRef r).2.1 out =
      (false, zeroRegion, out) ∧
    (memRef ≠ 0 →
      (ReturnTrackerMemory fl memRef r).1.slots fl.count = memRef ∧
      (ReturnTrackerMemory fl memRef r).1.count = fl.count + 1 ∧
      (ReturnTrackerMemory fl memRef r).2.2.1.pc = .done true ∧
      (ReturnTrackerMemory fl memRef r).2.2.2 = false) ∧
    (memRef = 0 →
      (ReturnTrackerMemory fl memRef r).1 = fl ∧
      (ReturnTrackerMemory fl memRef r).2.2.2 = true) := by
  have hzero : (ReturnTrackerMemory fl memRef r).2.1 = zeroRegion := by
    by_cases h : memRef ≠ 0 <;> simp [ReturnTrackerMemory, h]
  have hinv : IsValid t zeroRegion = false := by
    have hc : (zeroRegion.header.cookie == kHeaderCookie) = false := by decide
    simp [IsValid, headerOk, hc]
  refine ⟨hzero, by rw [hzero]; rfl, by rw [hzero]; exact hinv, ?_, ?_, ?_⟩
  · rw [hzero]
    simp [Snapshot, hinv]
  · intro hne
    have hsolo : runPusherSolo 4 fl ⟨memRef, .start⟩ =
        ({ slots := setSlot fl.slots fl.count memRef, count := fl.count + 1 },
         ⟨memRef, .done true⟩) := by
      simp [runPusherSolo, pusherStep, Nat.not_le.mpr hcount, hslot]
    simp [ReturnTrackerMemory, hne, hsolo, setSlot]
  · intro h0
    simp [ReturnTrackerMemory, h0]

/-- Witness for C7: returning an allocator-backed block (reference 42) to
an empty free list. -/
theorem c7_witness :
    (⟨fun _ => 0, 0⟩ : FreeList).count < kMaxThreadCount ∧
    (⟨fun _ => 0, 0⟩ : FreeList).slots 0 = 0 ∧
    (ReturnTrackerMemory ⟨fun _ => 0, 0⟩ 42 R2).2.1.header.process_id = 0 :=
  ⟨by decide, by decide,
   (c7_recycled_block_is_zeroed ⟨fun _ => 0, 0⟩ 42 R2 T2 [] emptySnapshot
      (by decide) (by decide)).2.1⟩

/-! ### The tear-flag protocol in the copy window (C2) -/

/-- Traces compose. -/
lemma applyTrace_append (a b : List WStep) (r : Region) :
    applyTrace (a ++ b) r = applyTrace b (applyTrace a r) := by
  simp [applyTrace, List.foldl_append]

/-- No writer micro-step other than `clearFlag` touches `stack_unchanged`,
and `clearFlag` zeroes it: the flag after a trace is 0 exactly when the
trace contains a `clearFlag`, else it is unchanged. -/
lemma flag_after_trace (l : List WStep) :
    ∀ r : Region, (applyTrace l r).header.stack_unchanged =
      if WStep.clearFlag ∈ l then 0 else r.header.stack_unchanged := by
  induction l with
  | nil => intro r; simp [applyTrace]
  | cons w rest ih =>
    intro r
    have hstep : applyTrace (w :: rest) r = applyTrace rest (applyWStep r w) :=
      rfl
    rw [hstep, ih]
    by_cases hw : w = WStep.clearFlag
    · subst hw
      have h0 : (applyWStep r WStep.clearFlag).header.stack_unchanged = 0 := rfl
      rw [h0]
      simp
    · have hkeep : (applyWStep r w).header.stack_unchanged =
          r.header.stack_unchanged := by
        cases w <;> simp_all [applyWStep]
      rw [hkeep]
      have hw2 : ¬ (WStep.clearFlag = w) := fun hh => hw hh.symm
      simp [List.mem_cons, hw2]

/-- The region component of the copy loop is the window trace applied. -/
lemma copyRecords_fst (gWin : List (List WStep)) :
    ∀ (k i : Nat) (r : Region) (buf : List Activity),
      (copyRecords gWin i k r buf).1 = applyTrace (winSlice gWin i k) r := by
  intro k
  induction k with
  | zero => intro i r buf; rfl
  | succ n ih =>
    intro i r buf
    show (copyRecords gWin (i + 1) n _ _).1 = _
    rw [ih]
    rw [winSlice, applyTrace_append, applyTrace_append, applyTrace_append,
      applyTrace_append, applyTrace_append]

/-- Peeling one list off the flatten of a dropped tail. -/
lemma drop_flatten_step (l : List (List WStep)) (m : Nat) :
    (l.drop m).flatten = l.getD m [] ++ (l.drop (m + 1)).flatten := by
  rcases h : l.drop m with _ | ⟨a, tl⟩
  · have hlen : l.length ≤ m := by
      rw [← List.drop_eq_nil_iff]
      exact h
    rw [List.getD_eq_default _ _ hlen, List.drop_eq_nil_of_le (by omega)]
    simp
  · have ha : l.getD m [] = a := by
      have h1 : l[m]? = some a := by
        rw [← List.head?_drop, h]
        rfl
      simp [List.getD, h1]
    have htl : l.drop (m + 1) = tl := by
      have h2 : l.drop (m + 1) = (l.drop m).drop 1 := by
        rw [List.drop_drop]
      rw [h2, h]
      rfl
    rw [ha, htl]
    rfl

/-- The copy-window slice plus the flushed remainder is the whole window
from gap `1 + 5*i` on. -/
lemma winSlice_flatten (gWin : List (List WStep)) :
    ∀ (k i : Nat),
      winSlice gWin i k ++ (gWin.drop (1 + 5 * i + 5 * k)).flatten =
        (gWin.drop (1 + 5 * i)).flatten := by
  intro k
  induction k with
  | zero => intro i; simp [winSlice]
  | succ n ih =>
    intro i
    rw [winSlice]
    have harith : 1 + 5 * i + 5 * (n + 1) = 1 + 5 * (i + 1) + 5 * n := by ring
    rw [harith]
    simp only [List.append_assoc]
    rw [ih (i + 1)]
    rw [drop_flatten_step gWin (1 + 5 * i),
        drop_flatten_step gWin (1 + 5 * i + 1),
        drop_flatten_step gWin (1 + 5 * i + 2),
        drop_flatten_step gWin (1 + 5 * i + 3),
        drop_flatten_step gWin (1 + 5 * i + 4)]
    have e1 : 1 + 5 * i + 1 + 1 = 1 + 5 * i + 2 := by ring
    have e2 : 1 + 5 * i + 2 + 1 = 1 + 5 * i + 3 := by ring
    have e3 : 1 + 5 * i + 3 + 1 = 1 + 5 * i + 4 := by ring
    have e4 : 1 + 5 * i + 4 + 1 = 1 + 5 * (i + 1) := by ring
    rw [e1, e2, e3, e4]

/-- The region at the tear-flag check is the entire window schedule applied
to the region as it was right after the tear-flag store. -/
lemma attempt_window_trace (gWin : List (List WStep)) (count : Nat)
    (r : Region) (buf : List Activity) :
    applyTrace ((gWin.drop (1 + 5 * count)).flatten)
      (copyRecords gWin 0 count (applyTrace (gWin.getD 0 []) r) buf).1 =
    applyTrace gWin.flatten r := by
  rw [copyRecords_fst]
  rw [← applyTrace_append, ← applyTrace_append]
  congr 1
  have h1 : winSlice gWin 0 count ++ (gWin.drop (1 + 5 * count)).flatten =
      (gWin.drop 1).flatten := by
    have := winSlice_flatten gWin count 0
    simpa using this
  rw [h1]
  have h2 : gWin.flatten = gWin.getD 0 [] ++ (gWin.drop 1).flatten := by
    have := drop_flatten_step gWin 0
    simpa using this
  rw [h2]

/-- C2 (amended): whenever a snapshot attempt reports success, no
`PopActivity` tear-flag store (`stack_unchanged := 0`) ran anywhere inside
the copy window — a pop overlapping the copy always forces a retry.  (An
in-place `ChangeActivity` overlapping the copy is *not* detected: see the
counterexample.) -/
theorem c2_amended_pop_overlap_forces_retry
    (t : ThreadActivityTracker) (s : AttemptSched) (r : Region)
    (out : ActivitySnapshot)
    (h : (snapshotAttempt t s r out).2.2 = AttemptRes.success) :
    WStep.clearFlag ∉ s.gWin.flatten := by
  simp only [snapshotAttempt] at h
  split at h
  case isTrue hflag => simp at h
  case isFalse hflag =>
    intro hmem
    apply hflag
    rw [attempt_window_trace, flag_after_trace, if_pos hmem]

/-- Witness for the amended C2: a quiet attempt succeeds, and its (empty)
window contains no tear-flag store. -/
theorem c2_amended_witness :
    (snapshotAttempt T2 quietSched R2 emptySnapshot).2.2 =
      AttemptRes.success ∧
    WStep.clearFlag ∉ quietSched.gWin.flatten :=
  ⟨by decide,
   c2_amended_pop_overlap_forces_retry T2 quietSched R2 emptySnapshot
     (by decide)⟩

/-- C2 (counterexample): with the writer's `ChangeActivity(0x67, data 22)`
— exactly its two stores, `changeSteps` — running between the snapshot's
copy of the top record's type and its copy of the record's data, the
attempt succeeds (no retry: the tear flag was never cleared), the whole
`Snapshot` call succeeds, and the returned record is torn: it matches
neither the record the writer had fully written before the change
(`recA`) nor the one after it (`recChanged`). -/
theorem c2_counterexample :
    tornSched.gWin.getD 5 [] = changeSteps T2 1 0x67 false ⟨22⟩ ∧
    (ChangeActivity T2 R2 0x67 false ⟨22⟩).mem 0 = recChanged ∧
    (snapshotAttempt T2 tornSched R2 emptySnapshot).2.2 =
      AttemptRes.success ∧
    (Snapshot T2 [tornSched] R2 emptySnapshot).1 = true ∧
    (Snapshot T2 [tornSched] R2 emptySnapshot).2.2.activity_stack =
      [⟨99, 4096, List.replicate kActivityCallStackSize 0, 0x61, ⟨22⟩⟩] ∧
    (⟨99, 4096, List.replicate kActivityCallStackSize 0, 0x61, ⟨22⟩⟩ :
        Activity) ≠ convertTimes R2.header recA ∧
    (⟨99, 4096, List.replicate kActivityCallStackSize 0, 0x61, ⟨22⟩⟩ :
        Activity) ≠ convertTimes R2.header recChanged := by
  decide

/-- C6 (counterexample): ten attempts in a row are torn by a pop (whose
tear-flag store forces the retry) followed by a re-push; `Snapshot`
returns failure after exhausting its attempts, yet the output snapshot —
which was empty on entry — is left holding the last attempt's copied
record rather than being discarded. -/
theorem c6_counterexample :
    emptySnapshot.activity_stack = [] ∧
    (Snapshot T2 c6Scheds R2 emptySnapshot).1 = false ∧
    (Snapshot T2 c6Scheds R2 emptySnapshot).2.2.activity_stack = [recA] := by
  decide

/-- C8: the interleaving `c8sched` (each step one atomic access of the
source's free-list loops) drives the free list into a state that violates
the code's own `DCHECK_LT(count, oldcount)` and both loses and duplicates
references: references 30 and 40 are in no slot and held by no thread,
reference 20 is simultaneously on the free list (slot 2) and held by
popper R, every pusher believes its push succeeded, and slot 1 is zero
even though it is below the published count. -/
theorem c8_freelist_loses_and_duplicates_references :
    (runSys c8init c8sched).fl.count = 3 ∧
    (runSys c8init c8sched).fl.slots 0 = 10 ∧
    (runSys c8init c8sched).fl.slots 1 = 0 ∧
    (runSys c8init c8sched).fl.slots 2 = 20 ∧
    ((runSys c8init c8sched).poppers.getD 1 ⟨.start⟩).pc =
      PopperPC.donePop 20 ∧
    (∀ p ∈ (runSys c8init c8sched).pushers, p.pc = PusherPC.done true) ∧
    (∀ i, i < kMaxThreadCount → (runSys c8init c8sched).fl.slots i ≠ 30 ∧
      (runSys c8init c8sched).fl.slots i ≠ 40) ∧
    ((runSys c8init c8sched).poppers.getD 0 ⟨.start⟩).pc = PopperPC.exch 1 ∧
    (runSys c8init c8sched).dcheckViolated = true := by
  decide

/-! ### C1: the quiet snapshot returns the naive reference stack -/

/-- `strlen31` never exceeds 31. -/
lemma strlen31_le (f : Nat → Nat) : strlen31 f ≤ 31 := by
  rw [strlen31]
  have h : ∀ (p : Nat → Bool) (l : List Nat),
      (l.takeWhile p).length ≤ l.length := by
    intro p l
    induction l with
    | nil => simp
    | cons a tl ih =>
      rw [List.takeWhile]
      cases p a <;> simp <;> omega
  calc ((List.range 31).takeWhile _).length ≤ (List.range 31).length := h _ _
    _ = 31 := by simp

/-- `strlcpy` into a zeroed buffer leaves the last byte NUL. -/
lemma strlcpy32_31 (src dst : Nat → Nat) (hd : dst 31 = 0) :
    strlcpy32 src dst 31 = 0 := by
  have hle := strlen31_le src
  rw [strlcpy32]
  by_cases h1 : 31 < strlen31 src
  · omega
  · rw [if_neg h1]
    by_cases h2 : 31 = strlen31 src
    · rw [if_pos h2]
    · rw [if_neg h2]
      exact hd

/-- The constructor on a fresh zeroed region with valid parameters
initializes the header (initial birth). -/
lemma trackerCtor_fresh (size : Nat) (pid tid now ticks : Int)
    (name : Nat → Nat)
    (hs1 : sizeofHeader + kMinStackDepth * sizeofActivity ≤ size)
    (hs3 : (size - sizeofHeader) / sizeofActivity < UINT32_MOD) :
    trackerCtor false size zeroRegion pid tid now ticks name =
      ({ stack_slots_ := (size - sizeofHeader) / sizeofActivity,
         valid_ := true },
       { header := { cookie := kHeaderCookie, process_id := pid,
                     thread_ref := tid, start_time := now,
                     start_ticks := ticks,
                     stack_slots := (size - sizeofHeader) / sizeofActivity,
                     current_depth := 0, stack_unchanged := 0,
                     thread_name := strlcpy32 name (fun _ => 0) },
         mem := fun _ => zeroActivity }) := by
  have hsub : sizetSub size sizeofHeader = size - sizeofHeader := by
    rw [sizetSub, if_pos (by omega)]
  have hinv : ctorParamsInvalid false size = false := by
    simp only [ctorParamsInvalid, hsub, Bool.false_or,
      Bool.or_eq_false_iff, decide_eq_false_iff_not]
    exact ⟨by omega, by omega⟩
  rw [trackerCtor]
  rw [hsub, u32_of_lt hs3]
  simp only [hinv, Bool.false_eq_true, if_false]
  have hc : zeroRegion.header.cookie = 0 := rfl
  rw [if_pos hc]
  rfl

/-- A header whose identifying fields are properly set passes `headerOk`. -/
lemma headerOk_of_fields (slots : Nat) (h : Header)
    (hc : h.cookie = kHeaderCookie) (hp : h.process_id ≠ 0)
    (ht : h.thread_ref ≠ 0) (hst : h.start_time ≠ 0)
    (hsk : h.start_ticks ≠ 0) (hss : h.stack_slots = slots)
    (hn : h.thread_name 31 = 0) : headerOk slots h = true := by
  simp [headerOk, hc, hp, ht, hst, hsk, hss, hn]

/-- The naive stack keeps its length under a change. -/
lemma naiveStep_change_length (L : List Activity) (ty : Nat) (sent : Bool)
    (d : ActivityData) (hne : L ≠ []) :
    (naiveStep L (.change ty sent d)).length = L.length := by
  rw [naiveStep]
  rw [List.getLast?_eq_getLast L hne]
  have hpos : 0 < L.length := List.length_pos.mpr hne
  simp
  omega

/-- The record memory written by a non-overflow push. -/
lemma push_normal_mem (t : ThreadActivityTracker) (r : Region)
    (o ty : Nat) (da : ActivityData) (now : Int)
    (h : ¬ t.stack_slots_ ≤ r.header.current_depth) (i : Nat) :
    (PushActivity t r o ty da now).mem i =
      if i = r.header.current_depth then
        { r.mem r.header.current_depth with time_internal := now, origin_address := o, activity_type := ty, data := da }
      else r.mem i := by
  simp [PushActivity, h]

/-- The header written by a non-overflow push. -/
lemma push_normal_header (t : ThreadActivityTracker) (r : Region)
    (o ty : Nat) (da : ActivityData) (now : Int)
    (h : ¬ t.stack_slots_ ≤ r.header.current_depth) :
    (PushActivity t r o ty da now).header =
      { r.header with current_depth := (u32 (r.header.current_depth + 1)) } := by
  simp [PushActivity, h]

/-- The record edit a within-limit change performs on the top slot. -/
def changeEdit (ty : Nat) (sent : Bool) (da : ActivityData)
    (a : Activity) : Activity :=
  let a1 := if ty ≠ ACT_NULL then { a with activity_type := ty } else a
  if ¬ sent then { a1 with data := da } else a1

/-- The record memory written by a within-limit change. -/
lemma change_mem (t : ThreadActivityTracker) (r : Region) (ty : Nat)
    (sent : Bool) (da : ActivityData)
    (hle : r.header.current_depth ≤ t.stack_slots_) (i : Nat) :
    (ChangeActivity t r ty sent da).mem i =
      if i = u32dec r.header.current_depth then
        changeEdit ty sent da (r.mem (u32dec r.header.current_depth))
      else r.mem i := by
  simp [ChangeActivity, hle, changeEdit]

/-- A within-limit change does not touch the header. -/
lemma change_header (t : ThreadActivityTracker) (r : Region) (ty : Nat)
    (sent : Bool) (da : ActivityData)
    (hle : r.header.current_depth ≤ t.stack_slots_) :
    (ChangeActivity t r ty sent da).header = r.header := by
  simp [ChangeActivity, hle]

/-- A change edit never touches the call-stack field. -/
lemma changeEdit_call_stack (ty : Nat) (sent : Bool) (da : ActivityData)
    (a : Activity) : (changeEdit ty sent da a).call_stack = a.call_stack := by
  rw [changeEdit]
  by_cases hn : ty ≠ ACT_NULL <;> by_cases hs : sent <;> simp [hn, hs]

/-- The naive change rewritten through `changeEdit`. -/
lemma naiveStep_change (L : List Activity) (ty : Nat) (sent : Bool)
    (da : ActivityData) (hne : L ≠ []) :
    naiveStep L (.change ty sent da) =
      L.dropLast ++ [changeEdit ty sent da (L.getLast hne)] := by
  rw [naiveStep, List.getLast?_eq_getLast L hne, changeEdit]

/-- SimInv is preserved by a push. -/
lemma simInv_push (t : ThreadActivityTracker) (h0 : Header)
    (L : List Activity) (r : Region) (o ty : Nat) (da : ActivityData)
    (now : Int) (inv : SimInv t h0 L r)
    (hlen : L.length + 1 < UINT32_MOD) :
    SimInv t h0 (naiveStep L (.push o ty da now))
      (PushActivity t r o ty da now) := by
  have hdep := inv.depth
  have hnaive : naiveStep L (.push o ty da now) = L ++
      [{ time_internal := now, origin_address := o,
         call_stack := List.replicate kActivityCallStackSize 0,
         activity_type := ty, data := da }] := rfl
  have hu : u32 (r.header.current_depth + 1) = L.length + 1 := by
    rw [hdep]
    exact u32_of_lt (by omega)
  by_cases hover : t.stack_slots_ ≤ r.header.current_depth
  · rw [push_overflow t r o ty da now hover, hnaive]
    refine ⟨inv.cookie, inv.pid, inv.tid, inv.stime, inv.sticks, inv.slots,
      inv.tname, ?_, ?_, inv.cstack⟩
    · show u32 (r.header.current_depth + 1) = _
      rw [hu]
      simp
    · intro i hi
      simp only [List.length_append, List.length_cons, List.length_nil] at hi
      have hi2 : i < L.length := by omega
      rw [List.getD_append _ _ _ _ hi2]
      exact inv.stack i (by omega)
  · rw [hnaive]
    have hhd := push_normal_header t r o ty da now hover
    have hmm := push_normal_mem t r o ty da now hover
    refine ⟨?_, ?_, ?_, ?_, ?_, ?_, ?_, ?_, ?_, ?_⟩
    · rw [hhd]; exact inv.cookie
    · rw [hhd]; exact inv.pid
    · rw [hhd]; exact inv.tid
    · rw [hhd]; exact inv.stime
    · rw [hhd]; exact inv.sticks
    · rw [hhd]; exact inv.slots
    · rw [hhd]; exact inv.tname
    · rw [hhd]
      show u32 (r.header.current_depth + 1) = _
      rw [hu]
      simp
    · intro i hi
      simp only [List.length_append, List.length_cons, List.length_nil] at hi
      rw [hmm i]
      by_cases hiL : i = L.length
      · subst hiL
        rw [if_pos hdep.symm,
          List.getD_append_right _ _ _ _ (le_refl _)]
        simp only [Nat.sub_self, List.getD_cons_zero]
        have hcs := inv.cstack r.header.current_depth
        apply Activity.ext <;> simp [hcs]
      · rw [if_neg (by omega), List.getD_append _ _ _ _ (by omega)]
        exact inv.stack i (by omega)
    · intro i
      rw [hmm i]
      by_cases hiL : i = r.header.current_depth
      · rw [if_pos hiL]
        exact inv.cstack r.header.current_depth
      · rw [if_neg hiL]
        exact inv.cstack i

/-- SimInv is preserved by a change. -/
lemma simInv_change (t : ThreadActivityTracker) (h0 : Header)
    (L : List Activity) (r : Region) (ty : Nat) (sent : Bool)
    (da : ActivityData) (inv : SimInv t h0 L r) (hne : L ≠ [])
    (hU : L.length < UINT32_MOD) :
    SimInv t h0 (naiveStep L (.change ty sent da))
      (ChangeActivity t r ty sent da) := by
  have hdep := inv.depth
  have hpos : 0 < L.length := List.length_pos.mpr hne
  have hlastD : L.getLast hne = L.getD (L.length - 1) zeroActivity := by
    rw [List.getLast_eq_getElem, List.getD_eq_getElem L _ (by omega)]
  have hnaive := naiveStep_change L ty sent da hne
  have hlen2 : (naiveStep L (.change ty sent da)).length = L.length :=
    naiveStep_change_length L ty sent da hne
  have hdropD : ∀ i, i < L.length - 1 →
      L.dropLast.getD i zeroActivity = L.getD i zeroActivity := by
    intro i hi
    rw [List.dropLast_eq_take]
    rw [List.getD_eq_getElem _ _ (by simp; omega),
        List.getD_eq_getElem L _ (by omega)]
    rw [List.getElem_take]
  by_cases hle : r.header.current_depth ≤ t.stack_slots_
  · have hidx : u32dec r.header.current_depth = L.length - 1 := by
      rw [hdep, depth_dec_u32 _ hpos hU]
    have hhd := change_header t r ty sent da hle
    have hmm := change_mem t r ty sent da hle
    refine ⟨?_, ?_, ?_, ?_, ?_, ?_, ?_, ?_, ?_, ?_⟩
    · rw [hhd]; exact inv.cookie
    · rw [hhd]; exact inv.pid
    · rw [hhd]; exact inv.tid
    · rw [hhd]; exact inv.stime
    · rw [hhd]; exact inv.sticks
    · rw [hhd]; exact inv.slots
    · rw [hhd]; exact inv.tname
    · rw [hhd, hlen2]; exact hdep
    · intro i hi
      rw [hlen2] at hi
      rw [hmm i, hidx, hnaive]
      by_cases hiL : i = L.length - 1
      · subst hiL
        rw [if_pos rfl]
        rw [List.getD_append_right _ _ _ _ (by simp)]
        have hLd : L.length - 1 - L.dropLast.length = 0 := by simp
        rw [hLd]
        simp only [List.getD_cons_zero]
        have htop : r.mem (L.length - 1) =
            L.getD (L.length - 1) zeroActivity := by
          apply inv.stack
          rw [hdep] at hle
          omega
        rw [htop, ← hlastD]
      · rw [if_neg hiL]
        have hi2 : i < L.length - 1 := by omega
        rw [List.getD_append _ _ _ _ (by simp; omega), hdropD i hi2]
        exact inv.stack i (by omega)
    · intro i
      rw [hmm i]
      by_cases hiL : i = u32dec r.header.current_depth
      · rw [if_pos hiL, changeEdit_call_stack]
        exact inv.cstack _
      · rw [if_neg hiL]
        exact inv.cstack i
  · have heq : ChangeActivity t r ty sent da = r := by
      simp [ChangeActivity, hle]
    rw [heq]
    refine ⟨inv.cookie, inv.pid, inv.tid, inv.stime, inv.sticks, inv.slots,
      inv.tname, by rw [hlen2]; exact hdep, ?_, inv.cstack⟩
    intro i hi
    rw [hlen2] at hi
    rw [hnaive]
    have hslots : t.stack_slots_ < L.length := by omega
    have hi2 : i < L.length - 1 := by omega
    rw [List.getD_append _ _ _ _ (by simp; omega), hdropD i hi2]
    exact inv.stack i (by omega)

/-- SimInv is preserved by a pop. -/
lemma simInv_pop (t : ThreadActivityTracker) (h0 : Header)
    (L : List Activity) (r : Region) (inv : SimInv t h0 L r) (hne : L ≠ [])
    (hU : L.length < UINT32_MOD) :
    SimInv t h0 (naiveStep L .pop) (PopActivity t r) := by
  have hdep := inv.depth
  have hpos : 0 < L.length := List.length_pos.mpr hne
  have hdropD : ∀ i, i < L.length - 1 →
      L.dropLast.getD i zeroActivity = L.getD i zeroActivity := by
    intro i hi
    rw [List.dropLast_eq_take]
    rw [List.getD_eq_getElem _ _ (by simp; omega),
        List.getD_eq_getElem L _ (by omega)]
    rw [List.getElem_take]
  refine ⟨inv.cookie, inv.pid, inv.tid, inv.stime, inv.sticks, inv.slots,
    inv.tname, ?_, ?_, inv.cstack⟩
  · show u32dec r.header.current_depth = _
    rw [hdep, depth_dec_u32 _ hpos hU]
    show _ = L.dropLast.length
    simp
  · intro i hi
    show r.mem i = _
    have hlen : (naiveStep L .pop).length = L.length - 1 := by
      show L.dropLast.length = _
      simp
    rw [hlen] at hi
    have hi2 : i < L.length - 1 := by omega
    show _ = L.dropLast.getD i zeroActivity
    rw [hdropD i hi2]
    exact inv.stack i (by omega)

/-- SimInv is preserved by any well-formed operation sequence. -/
lemma simInv_run (t : ThreadActivityTracker) (h0 : Header) :
    ∀ (ops : List Op) (L : List Activity) (r : Region),
      SimInv t h0 L r → wfFrom L.length ops = true →
      L.length + ops.length < UINT32_MOD →
      SimInv t h0 (ops.foldl naiveStep L) (opsRun t r ops) := by
  intro ops
  induction ops with
  | nil => intro L r inv _ _; exact inv
  | cons op rest ih =>
    intro L r inv hwf hbound
    have hblen : L.length + (rest.length + 1) < UINT32_MOD := hbound
    cases op with
    | push o ty da now =>
      have hwf2 : wfFrom (L.length + 1) rest = true := hwf
      have hstep := simInv_push t h0 L r o ty da now inv (by omega)
      have hL1 : (naiveStep L (.push o ty da now)).length = L.length + 1 := by
        show (L ++ [_]).length = _
        simp
      have hrec := ih _ _ hstep (by rw [hL1]; exact hwf2)
        (by rw [hL1]; omega)
      exact hrec
    | change ty sent da =>
      rw [wfFrom, Bool.and_eq_true, decide_eq_true_eq] at hwf
      have hne : L ≠ [] := by
        intro hL
        rw [hL] at hwf
        simp at hwf
      have hstep := simInv_change t h0 L r ty sent da inv hne (by omega)
      have hL1 := naiveStep_change_length L ty sent da hne
      have hrec := ih _ _ hstep (by rw [hL1]; exact hwf.2)
        (by rw [hL1]; omega)
      exact hrec
    | pop =>
      rw [wfFrom, Bool.and_eq_true, decide_eq_true_eq] at hwf
      have hne : L ≠ [] := by
        intro hL
        rw [hL] at hwf
        simp at hwf
      have hstep := simInv_pop t h0 L r inv hne (by omega)
      have hL1 : (naiveStep L .pop).length = L.length - 1 := by
        show L.dropLast.length = _
        simp
      have hrec := ih _ _ hstep (by rw [hL1]; exact hwf.2)
        (by rw [hL1]; omega)
      exact hrec

/-- `vector::resize` produces the requested length. -/
lemma vecResize_length (l : List Activity) (n : Nat) :
    (vecResize l n).length = n := by
  rw [vecResize]
  simp only [List.length_append, List.length_take, List.length_replicate]
  omega

/-- `getD` after `set` at the same index. -/
lemma getD_set_self (l : List Activity) (i : Nat) (a : Activity)
    (h : i < l.length) : (l.set i a).getD i zeroActivity = a := by
  rw [List.getD_eq_getElem _ _ (by simp [h])]
  simp [List.getElem_set]

/-- `getD` after `set` at another index. -/
lemma getD_set_ne (l : List Activity) (i j : Nat) (a : Activity)
    (h : j ≠ i) : (l.set i a).getD j zeroActivity = l.getD j zeroActivity := by
  rw [List.getD_eq_getElem?_getD, List.getD_eq_getElem?_getD]
  rw [List.getElem?_set_ne (fun hh => h hh.symm)]

/-- `getD` on an empty schedule. -/
lemma getD_nil_trace (n : Nat) :
    (([] : List (List WStep))).getD n [] = [] := rfl

/-- The empty trace does nothing. -/
lemma applyTrace_nil (r : Region) : applyTrace [] r = r := rfl

/-- An empty window schedule contributes no writer steps. -/
lemma winSlice_nil : ∀ (k i : Nat), winSlice [] i k = [] := by
  intro k
  induction k with
  | zero => intro i; rfl
  | succ n ih => intro i; rw [winSlice]; simp [ih]

/-- With no interference the copy loop leaves the region alone. -/
lemma copyRecords_nil_fst (r : Region) (k i : Nat) (buf : List Activity) :
    (copyRecords [] i k r buf).1 = r := by
  rw [copyRecords_fst, winSlice_nil]
  rfl

/-- With no interference the copy loop writes records `i..i+k-1` of the
region into the buffer and touches nothing else. -/
lemma copyRecords_nil_snd (r : Region) :
    ∀ (k i : Nat) (buf : List Activity), i + k ≤ buf.length →
      (copyRecords [] i k r buf).2.length = buf.length ∧
      ∀ j, (copyRecords [] i k r buf).2.getD j zeroActivity =
        if i ≤ j ∧ j < i + k then r.mem j else buf.getD j zeroActivity := by
  intro k
  induction k with
  | zero =>
    intro i buf _
    refine ⟨rfl, fun j => ?_⟩
    rw [if_neg (by omega)]
    rfl
  | succ n ih =>
    intro i buf hlen
    have hi : i < buf.length := by omega
    have hstep : copyRecords [] i (n + 1) r buf =
        copyRecords [] (i + 1) n r (buf.set i (r.mem i)) := by
      show copyRecords [] (i + 1) n r _ = _
      apply congrArg
      simp only [getD_nil_trace, applyTrace_nil, getD_set_self, List.set_set,
        List.length_set, hi]
    rw [hstep]
    have hrec := ih (i + 1) (buf.set i (r.mem i))
      (by rw [List.length_set]; omega)
    refine ⟨by rw [hrec.1, List.length_set], fun j => ?_⟩
    rw [hrec.2 j]
    by_cases h1 : i + 1 ≤ j ∧ j < i + 1 + n
    · rw [if_pos h1, if_pos (by omega)]
    · rw [if_neg h1]
      by_cases h2 : j = i
      · subst h2
        rw [getD_set_self _ _ _ hi, if_pos (by omega)]
      · rw [getD_set_ne _ _ _ _ h2, if_neg (by omega)]

/-- With no interference the whole quiet copy is the first `count` records
of the region. -/
lemma copy_quiet_list (r : Region) (count : Nat) (buf : List Activity)
    (hlen : buf.length = count) :
    (copyRecords [] 0 count r buf).2 = (List.range count).map r.mem := by
  have h := copyRecords_nil_snd r count 0 buf (by omega)
  apply List.ext_getElem
  · rw [h.1, hlen]
    simp
  · intro j h1 h2
    have hj : j < count := by simpa using h2
    rw [← List.getD_eq_getElem _ zeroActivity h1, h.2 j, if_pos (by omega)]
    rw [List.getElem_map, List.getElem_range]

/-- A quiet attempt (no writer interference) on a valid region succeeds on
the spot and returns the first `min depth N` records, time-converted,
together with the full depth and the identifying header fields. -/
lemma snapshotAttempt_quiet (t : ThreadActivityTracker) (r : Region)
    (out : ActivitySnapshot) (hvalid : IsValid t r = true) :
    snapshotAttempt t quietSched r out =
      ({ r with header.stack_unchanged := 1 },
       { activity_stack :=
           (List.range (min r.header.current_depth t.stack_slots_)).map
             (fun i => convertTimes r.header (r.mem i)),
         activity_stack_depth := r.header.current_depth,
         thread_name := readName r.header,
         thread_id := r.header.thread_ref,
         process_id := r.header.process_id },
       AttemptRes.success) := by
  have hvC : IsValid t { r with header.stack_unchanged := 1 } = true := hvalid
  have hcopy1 : ∀ buf, (copyRecords [] 0
      (min r.header.current_depth t.stack_slots_)
      ({ r with header.stack_unchanged := 1 } : Region) buf).1 =
      { r with header.stack_unchanged := 1 } :=
    fun buf => copyRecords_nil_fst _ _ _ buf
  have hcopy2 : (copyRecords [] 0
      (min r.header.current_depth t.stack_slots_)
      ({ r with header.stack_unchanged := 1 } : Region)
      (vecResize out.activity_stack
        (min r.header.current_depth t.stack_slots_))).2 =
      (List.range (min r.header.current_depth t.stack_slots_)).map r.mem :=
    copy_quiet_list _ _ _ (vecResize_length _ _)
  simp only [snapshotAttempt, quietSched, getD_nil_trace, applyTrace_nil,
    List.drop_nil, List.flatten_nil, hcopy1, hcopy2]
  rw [if_neg (by decide : ¬ (1 : Nat) = 0)]
  rw [if_neg (by simp)]
  rw [if_neg (by simp [hvC])]
  simp [convertTimes, List.map_map, readName]

/-- The snapshot loop returns success immediately when the first attempt
succeeds. -/
lemma snapshotLoop_succ_success (t : ThreadActivityTracker) (n : Nat)
    (scheds : List AttemptSched) (r : Region) (out : ActivitySnapshot)
    (r1 : Region) (out1 : ActivitySnapshot)
    (h : snapshotAttempt t (scheds.headD quietSched) r out =
      (r1, out1, AttemptRes.success)) :
    snapshotLoop t (n + 1) scheds r out = (true, r1, out1) := by
  rw [snapshotLoop, h]

/-- A quiet snapshot of a valid region succeeds with the quiet attempt's
output. -/
lemma snapshot_quiet (t : ThreadActivityTracker) (r : Region)
    (out : ActivitySnapshot) (hvalid : IsValid t r = true) :
    Snapshot t [] r out =
      (true, { r with header.stack_unchanged := 1 },
       { activity_stack :=
           (List.range (min r.header.current_depth t.stack_slots_)).map
             (fun i => convertTimes r.header (r.mem i)),
         activity_stack_depth := r.header.current_depth,
         thread_name := readName r.header,
         thread_id := r.header.thread_ref,
         process_id := r.header.process_id }) := by
  rw [Snapshot, if_neg (by simp [hvalid])]
  exact snapshotLoop_succ_success t 9 [] r out _ _
    (snapshotAttempt_quiet t r out hvalid)

/-- C1: for every well-formed sequence of push/change/pop operations by
the single owning thread with no concurrent readers, a snapshot of the
resulting region succeeds and returns exactly what the naive reference
model computes: the first `min(depth, stack_slots)` records in push order
(with the snapshot's tick-to-wall-time conversion applied), and
`activity_stack_depth` reporting the full, possibly overflowed, depth.
Since the operation sequence is universally quantified, this holds after
each operation of any run. -/
theorem c1_snapshot_matches_reference_model
    (size : Nat) (pid tid now0 ticks0 : Int) (name : Nat → Nat)
    (ops : List Op) (out : ActivitySnapshot)
    (hs1 : sizeofHeader + kMinStackDepth * sizeofActivity ≤ size)
    (hs3 : (size - sizeofHeader) / sizeofActivity < UINT32_MOD)
    (hpid : pid ≠ 0) (htid : tid ≠ 0) (hnow : now0 ≠ 0) (hticks : ticks0 ≠ 0)
    (hwf : wfFrom 0 ops = true) (hops : ops.length < UINT32_MOD) :
    (Snapshot (trackerCtor false size zeroRegion pid tid now0 ticks0 name).1 []
      (opsRun (trackerCtor false size zeroRegion pid tid now0 ticks0 name).1
        (trackerCtor false size zeroRegion pid tid now0 ticks0 name).2 ops)
      out).1 = true ∧
    (Snapshot (trackerCtor false size zeroRegion pid tid now0 ticks0 name).1 []
      (opsRun (trackerCtor false size zeroRegion pid tid now0 ticks0 name).1
        (trackerCtor false size zeroRegion pid tid now0 ticks0 name).2 ops)
      out).2.2.activity_stack =
      ((naiveRun ops).take (min (naiveRun ops).length
          (trackerCtor false size zeroRegion pid tid now0 ticks0
            name).1.stack_slots_)).map
        (fun a => { a with time_internal :=
            now0 + (a.time_internal - ticks0) }) ∧
    (Snapshot (trackerCtor false size zeroRegion pid tid now0 ticks0 name).1 []
      (opsRun (trackerCtor false size zeroRegion pid tid now0 ticks0 name).1
        (trackerCtor false size zeroRegion pid tid now0 ticks0 name).2 ops)
      out).2.2.activity_stack_depth = (naiveRun ops).length := by
  rw [trackerCtor_fresh size pid tid now0 ticks0 name hs1 hs3]
  set N := (size - sizeofHeader) / sizeofActivity with hN
  set h0 : Header := { cookie := kHeaderCookie, process_id := pid, thread_ref := tid, start_time := now0, start_ticks := ticks0, stack_slots := N, current_depth := 0, stack_unchanged := 0, thread_name := strlcpy32 name (fun _ => 0) } with hh0
  set r0 : Region := { header := h0, mem := fun _ => zeroActivity } with hr0
  set t : ThreadActivityTracker := { stack_slots_ := N, valid_ := true }
    with ht
  have hinv0 : SimInv t h0 [] r0 :=
    ⟨rfl, rfl, rfl, rfl, rfl, rfl, rfl, rfl,
     by intro i hi; simp at hi, fun i => rfl⟩
  have hrun := simInv_run t h0 ops [] r0 hinv0 hwf (by simpa using hops)
  have hL : naiveRun ops = ops.foldl naiveStep [] := rfl
  set L := ops.foldl naiveStep [] with hLdef
  rw [show naiveRun ops = L from rfl]
  set rF := opsRun t r0 ops with hrF
  have hvalid : IsValid t rF = true := by
    rw [IsValid, headerOk_of_fields N rF.header
      (by rw [hrun.cookie])
      (by rw [hrun.pid]; exact hpid)
      (by rw [hrun.tid]; exact htid)
      (by rw [hrun.stime]; exact hnow)
      (by rw [hrun.sticks]; exact hticks)
      (by rw [hrun.slots])
      (by rw [hrun.tname]; exact strlcpy32_31 name (fun _ => 0) rfl)]
    rfl
  rw [snapshot_quiet t rF out hvalid]
  refine ⟨rfl, ?_, hrun.depth⟩
  show (List.range (min rF.header.current_depth t.stack_slots_)).map
      (fun i => convertTimes rF.header (rF.mem i)) = _
  rw [hrun.depth]
  have hmin : min L.length t.stack_slots_ ≤ L.length := Nat.min_le_left _ _
  apply List.ext_getElem
  · simp only [List.length_map, List.length_range, List.length_take, hL]
    omega
  · intro j h1 h2
    have hj : j < min L.length t.stack_slots_ := by simpa using h1
    rw [List.getElem_map, List.getElem_range, List.getElem_map,
      List.getElem_take]
    have hjs : rF.mem j = L.getD j zeroActivity := hrun.stack j hj
    rw [hjs, convertTimes, hrun.stime, hrun.sticks]
    rw [List.getD_eq_getElem L zeroActivity (by omega)]

/-- Witness for C1: the spec's S2 scenario (N = 2, push A, push B, push C
overflowing, pop) on a freshly constructed tracker. -/
theorem c1_witness :
    sizeofHeader + kMinStackDepth * sizeofActivity ≤ 312 ∧
    (312 - sizeofHeader) / sizeofActivity < UINT32_MOD ∧
    wfFrom 0 opsS2 = true ∧
    (Snapshot (trackerCtor false 312 zeroRegion 7 5 3 4 (fun _ => 0)).1 []
      (opsRun (trackerCtor false 312 zeroRegion 7 5 3 4 (fun _ => 0)).1
        (trackerCtor false 312 zeroRegion 7 5 3 4 (fun _ => 0)).2 opsS2)
      emptySnapshot).2.2.activity_stack_depth = (naiveRun opsS2).length :=
  ⟨by decide, by decide, by decide,
   (c1_snapshot_matches_reference_model 312 7 5 3 4 (fun _ => 0) opsS2
      emptySnapshot (by decide) (by decide) (by decide) (by decide)
      (by decide) (by decide) (by decide) (by decide)).2.2⟩

end ActivityTracker
